import Mathlib

/-!
# Trace quickstart handler (`src/main.go`)

A shallow embedding of the request handler and of the start-up sequence of
`main`.  The handler is sequential code over three external calls
(`gke.Detect`, `resource.FromEnv`, `client.Do`); each returns a pointer and an
error, both nullable, and these pairs are the fields of `Calls`.  Everything the
handler does to the outside world is recorded, in order, as a list of `Event`s.
Spans are reached through pointers, so they live in a `Heap` that the handler
threads through.  A nil dereference ends a run in `Outcome.panicked`.
-/

namespace TraceQuickstart

/-! ## Data model -/

/-- Value of a span attribute (`trace.Attribute` carries a string, a number or a bool). -/
inductive AttrValue where
  | str (s : String)
  | num (n : Int)
  | bool (b : Bool)
  deriving DecidableEq, Repr

/-- A key/value pair handed to `AddAttributes` (`trace.Attribute`). -/
structure Attribute where
  key : String
  value : AttrValue
  deriving DecidableEq, Repr

/-- Constructor `trace.StringAttribute(k, v)` used on line 86. -/
def StringAttribute (k v : String) : Attribute :=
  { key := k, value := AttrValue.str v }

/-- Attribute store of a span: association list from key to value. -/
abbrev Attributes := List (String × AttrValue)

/-- Modelled from the spec: the attribute mapping of a span (the type `trace.Span` is
not under `src/`).  Section 3 describes it as a mapping with unique keys and
last-write-wins: writing a key drops any earlier entry for that key. -/
def Attributes.set (m : Attributes) (a : Attribute) : Attributes :=
  (a.key, a.value) :: m.filter (fun p => p.1 != a.key)

/-- Trace context of section 3: trace id, span id, sampling flag. -/
structure TraceContext where
  trace_id : Nat
  span_id : Nat
  sampled : Bool
  deriving DecidableEq, Repr

/-- Span of section 3.  `recording` separates a recording span from a no-op span. -/
structure Span where
  context : TraceContext
  parent_span_id : Option Nat
  recording : Bool
  attributes : Attributes
  deriving DecidableEq, Repr

/-- Modelled from the spec: `(*Span).AddAttributes` of `go.opencensus.io/trace`, which is
not under `src/`, on a span that exists.  Sections 4.3 and 9: attribute-setting on a
no-op span is silently ignored; on a recording span each attribute is written into
the mapping in argument order. -/
def Span.AddAttributes (s : Span) (attrs : List Attribute) : Span :=
  if s.recording then { s with attributes := attrs.foldl Attributes.set s.attributes } else s

/-- Address of a span object; `*trace.Span` values are `Option SpanRef`, nil being `none`. -/
abbrev SpanRef := Nat

/-- Current contents of every span object. -/
abbrev Heap := SpanRef → Span

/-- Modelled from the spec: `AddAttributes` called through a span pointer (the method is
not under `src/`).  On a span that exists it is the attribute-setting call of sections
4.3 and 9, applied in place to the object behind the pointer.  For a nil pointer the
spec is silent: the call is taken to return without effect, which is an assumption about
the library and not a fact of `src/` or of the spec. -/
def AddAttributes (h : Heap) (span : Option SpanRef) (attrs : List Attribute) : Heap :=
  match span with
  | none => h
  | some p => Function.update h p ((h p).AddAttributes attrs)

/-- Request-scoped context: the identity of its cancellation signal and the span
pointer stored in it. -/
structure Context where
  cancelId : Nat
  span : Option SpanRef
  deriving DecidableEq, Repr

/-- Context given to a request by `http.NewRequest` (`context.Background()`). -/
def Context.background : Context :=
  { cancelId := 0, span := none }

/-- Accessor `trace.FromContext`: the span pointer stored in the context, nil when there is none. -/
def FromContext (ctx : Context) : Option SpanRef :=
  ctx.span

/-- An HTTP request (`http.Request`), inbound or outbound. -/
structure Request where
  method : String
  url : String
  header : List (String × String)
  body : Option String
  ctx : Context
  deriving DecidableEq, Repr

/-- Constructor `http.NewRequest(method, url, body)`; line 71 discards its error result. -/
def NewRequest (method url : String) (body : Option String) : Request :=
  { method := method, url := url, header := [], body := body, ctx := Context.background }

/-- Method `(*http.Request).WithContext`: the same request carrying another context. -/
def Request.WithContext (req : Request) (ctx : Context) : Request :=
  { req with ctx := ctx }

/-- Result of a detection (`resource.Resource`): a type tag and labels.  `Labels` is a Go
map; the list is the order in which the `range` loop visits its entries. -/
structure Resource where
  Type_ : String
  Labels : List (String × String)
  deriving DecidableEq, Repr

/-- Response handed back by `client.Do`. -/
structure Response where
  StatusCode : Nat
  Body : Nat
  deriving DecidableEq, Repr

/-- What the three external calls of one handler run return.  Each is a Go pair of a
pointer and an error; either component may be nil. -/
structure Calls where
  /-- Result of `gke.Detect(r.Context())`: the resource pointer and the error. -/
  detect : Option Resource × Option String
  /-- Result of `resource.FromEnv(r.Context())`: the value and the error. -/
  fromEnv : Option Resource × Option String
  /-- Result of `client.Do(req)`: the response pointer and the error. -/
  clientDo : Option Response × Option String

/-- Effects of the handler, in program order. -/
inductive Event where
  | logPrint (msg : String)
  | logLabel (k v : String)
  | addAttributes (span : Option SpanRef) (attr : Attribute)
  | logSpan (s : Span)
  | logEnv (env : Option Resource)
  | clientDo (req : Request)
  | logFatal (err : String)
  | bodyClose (resp : Response)
  deriving DecidableEq, Repr

/-- How a run of the handler ends: it returns to the server, the process exits, or the
handler panics on a nil dereference. -/
inductive Outcome where
  | returned
  | exited (code : Nat)
  | panicked
  deriving DecidableEq, Repr

/-- Mutable state while the handler runs: span objects and the effects so far. -/
structure HState where
  heap : Heap
  events : List Event

/-- Result of a step that may dereference nil: the run goes on, or it panics in the
state it had reached. -/
inductive Step where
  | next (st : HState)
  | panic (st : HState)

/-- State carried by a step result. -/
def Step.state : Step → HState
  | Step.next st => st
  | Step.panic st => st

/-- Final state of a handler run. -/
structure HandlerResult where
  heap : Heap
  events : List Event
  outcome : Outcome

/-! ## The handler (lines 70-105) -/

/-- Lines 84-88: for each label, log it, build a string attribute and add it to `span1`. -/
def labelLoop (span1 : Option SpanRef) : List (String × String) → HState → HState
  | [], st => st
  | (k, v) :: rest, st =>
    let attr := StringAttribute k v
    labelLoop span1 rest
      { heap := AddAttributes st.heap span1 [attr]
        events := st.events ++ [Event.logLabel k v, Event.addAttributes span1 attr] }

/-- Lines 79-89: detection.  With `err != nil` the error is logged.  Otherwise line 83
reads `abc.Type` with no nil check: on a nil `abc` the handler panics there, before
anything is logged; on a resource its type is logged and its labels are added. -/
def detectStep (c : Calls) (span1 : Option SpanRef) (st : HState) : Step :=
  match c.detect with
  | (_, some err) => Step.next { st with events := st.events ++ [Event.logPrint err] }
  | (none, none) => Step.panic st
  | (some abc, none) =>
    Step.next
      (labelLoop span1 abc.Labels { st with events := st.events ++ [Event.logPrint abc.Type_] })

/-- Lines 91-93: the span is logged when the pointer is not nil. -/
def logSpanStep (span1 : Option SpanRef) (st : HState) : HState :=
  match span1 with
  | some p => { st with events := st.events ++ [Event.logSpan (st.heap p)] }
  | none => st

/-- Lines 95-96: the environment resource is looked up and logged; its error is dropped. -/
def fromEnvStep (c : Calls) (st : HState) : HState :=
  { st with events := st.events ++ [Event.logEnv c.fromEnv.1] }

/-- Lines 98-104: the outbound call.  With `err != nil` the handler calls `log.Fatal`,
which logs and exits with status 1, whether or not a response came with the error.
Otherwise line 104 closes `resp.Body` with no nil check: the handler returns after the
close, or panics on a nil `resp`. -/
def doStep (c : Calls) (req : Request) (st : HState) : HandlerResult :=
  let events := st.events ++ [Event.clientDo req]
  match c.clientDo with
  | (_, some err) =>
    { heap := st.heap, events := events ++ [Event.logFatal err], outcome := Outcome.exited 1 }
  | (none, none) =>
    { heap := st.heap, events := events, outcome := Outcome.panicked }
  | (some resp, none) =>
    { heap := st.heap, events := events ++ [Event.bodyClose resp], outcome := Outcome.returned }

/-- The handler function of lines 70-105, run on inbound request `r` with span objects `heap`. -/
def handler (c : Calls) (r : Request) (heap : Heap) : HandlerResult :=
  let req := NewRequest "GET" "https://www.google.com" none
  let req := req.WithContext r.ctx
  let span1 := FromContext r.ctx
  let st : HState := { heap := heap, events := [] }
  match detectStep c span1 st with
  | Step.panic st => { heap := st.heap, events := st.events, outcome := Outcome.panicked }
  | Step.next st =>
    let st := logSpanStep span1 st
    let st := fromEnvStep c st
    doStep c req st

/-- Requests handed to `client.Do`, in order. -/
def sentRequests : List Event → List Request
  | [] => []
  | Event.clientDo req :: rest => req :: sentRequests rest
  | _ :: rest => sentRequests rest

/-- Responses whose body was closed, in order. -/
def closedBodies : List Event → List Response
  | [] => []
  | Event.bodyClose resp :: rest => resp :: closedBodies rest
  | _ :: rest => closedBodies rest

/-- Attributes passed to `AddAttributes`, in order. -/
def addedAttributes : List Event → List Attribute
  | [] => []
  | Event.addAttributes _ attr :: rest => attr :: addedAttributes rest
  | _ :: rest => addedAttributes rest

/-! ## Start-up (lines 36-61) -/

/-- Modelled from the spec: the sampler contract of section 4.2 (`trace.Sampler` is not under
`src/`): `shouldSample(trace_id) -> bool`. -/
abbrev Sampler := Nat → Bool

/-- Modelled from the spec: `trace.AlwaysSample()` is not under `src/`; section 4.2 has it
return true unconditionally. -/
def AlwaysSample : Sampler :=
  fun _ => true

/-- Argument of `trace.ApplyConfig` (`trace.Config`); an unset field is `none`. -/
structure Config where
  DefaultSampler : Option Sampler

/-- Modelled from the spec: `trace.ApplyConfig` is not under `src/`; sections 3 and 4.2 have
the policy set once at start-up and read on every trace creation: a sampler given in
the argument replaces the one in force. -/
def ApplyConfig (current : Sampler) (cfg : Config) : Sampler :=
  match cfg.DefaultSampler with
  | some s => s
  | none => current

/-- Modelled from the spec: the root case of the span factory of section 4.3 (`trace.StartSpan`
is not under `src/`): with no parent the sampler is consulted on the new trace id, and
a negative answer gives a no-op span. -/
def startRootSpan (shouldSample : Sampler) (newTraceId newSpanId : Nat) : Span :=
  { context := { trace_id := newTraceId, span_id := newSpanId, sampled := shouldSample newTraceId }
    parent_span_id := none
    recording := shouldSample newTraceId
    attributes := [] }

/-- What the external calls of the start-up sequence return. -/
structure StartupCalls where
  /-- Error of `stackdriver.NewExporter`, if any. -/
  newExporter : Option String
  /-- Error of `view.Register`, if any. -/
  viewRegister : Option String

/-- State after the start-up sequence. -/
structure SetupResult where
  sampler : Sampler
  log : List String
  exit : Option Nat

/-- Lines 38-61 of `main`: exporter creation (fatal on error), view registration (logged
either way), then `trace.ApplyConfig` with `AlwaysSample`. -/
def mainSetup (s : StartupCalls) (current : Sampler) : SetupResult :=
  match s.newExporter with
  | some err => { sampler := current, log := [err], exit := some 1 }
  | none =>
    let log :=
      match s.viewRegister with
      | some _ => ["Error registering default server views"]
      | none => ["Registered default server views Duke"]
    { sampler := ApplyConfig current { DefaultSampler := some AlwaysSample }
      log := log
      exit := none }

/-! ## Example inputs -/

/-- Span objects of the examples: every address holds a recording span of trace 7 that
already has a `zone` and an `http.path` attribute. -/
def exampleHeap : Heap :=
  fun _ =>
    { context := { trace_id := 7, span_id := 9, sampled := true }
      parent_span_id := some 3
      recording := true
      attributes := [("zone", AttrValue.str "old"), ("http.path", AttrValue.str "/foo")] }

/-- An inbound POST on `/foo` whose context holds the span at address 1. -/
def exampleRequest : Request :=
  { method := "POST"
    url := "/foo"
    header := [("X-Cloud-Trace-Context", "00000000000000000000000000000007/3;o=1")]
    body := some "payload"
    ctx := { cancelId := 4, span := some 1 } }

/-- A detection result with two labels, one of them under a key the example span already has. -/
def exampleResource : Resource :=
  { Type_ := "k8s_container", Labels := [("zone", "us-central1-a"), ("pod_name", "p1")] }

/-- A run in which detection succeeds and the outbound call answers with status 500. -/
def exampleCallsOk : Calls :=
  { detect := (some exampleResource, none)
    fromEnv := (none, some "no environment resource")
    clientDo := (some { StatusCode := 500, Body := 1 }, none) }

/-- A run in which detection succeeds and the outbound call fails in the transport. -/
def exampleCallsTransportError : Calls :=
  { detect := (some exampleResource, none)
    fromEnv := (none, none)
    clientDo := (none, some "dial tcp: connection refused") }

/-- A run in which detection succeeds and `client.Do` gives back both the last response
and an error, as it does when the redirect policy stops the request. -/
def exampleCallsRedirectError : Calls :=
  { detect := (some exampleResource, none)
    fromEnv := (none, none)
    clientDo := (some { StatusCode := 302, Body := 2 }, some "stopped after 10 redirects") }

/-- A run in which `gke.Detect` returns neither a resource nor an error, and the outbound
call would answer with status 200. -/
def exampleCallsNoResource : Calls :=
  { detect := (none, none)
    fromEnv := (none, none)
    clientDo := (some { StatusCode := 200, Body := 3 }, none) }

/-! ## Lemmas: attribute store and label loop -/

theorem lookup_filter_ne (m : Attributes) (a k : String) (h : k ≠ a) :
    List.lookup k (m.filter (fun p => p.1 != a)) = List.lookup k m := by
  induction m with
  | nil => rfl
  | cons hd tl ih =>
    obtain ⟨k1, v1⟩ := hd
    by_cases h1 : k1 = a
    · subst h1
      have hk : (k == k1) = false := by simpa using h
      simp [List.filter_cons, List.lookup_cons, hk, ih]
    · have hk : (k1 != a) = true := by simpa using h1
      simp [List.filter_cons, List.lookup_cons, hk, ih]

theorem lookup_set_self (m : Attributes) (a : Attribute) :
    List.lookup a.key (Attributes.set m a) = some a.value := by
  simp [Attributes.set, List.lookup_cons]

theorem lookup_set_ne (m : Attributes) (a : Attribute) (k : String) (h : k ≠ a.key) :
    List.lookup k (Attributes.set m a) = List.lookup k m := by
  have hk : (k == a.key) = false := by simpa using h
  simp [Attributes.set, List.lookup_cons, hk, lookup_filter_ne m a.key k h]

theorem labelLoop_cons (span1 : Option SpanRef) (k v : String) (rest : List (String × String))
    (st : HState) :
    labelLoop span1 ((k, v) :: rest) st =
      labelLoop span1 rest
        { heap := AddAttributes st.heap span1 [StringAttribute k v]
          events := st.events ++ [Event.logLabel k v, Event.addAttributes span1 (StringAttribute k v)] } := rfl

theorem addAttributes_heap_self (h : Heap) (p : SpanRef) (attrs : List Attribute) :
    AddAttributes h (some p) attrs p = (h p).AddAttributes attrs := by
  simp [AddAttributes]

theorem addAttributes_heap_other (h : Heap) (p q : SpanRef) (attrs : List Attribute) (hq : q ≠ p) :
    AddAttributes h (some p) attrs q = h q := by
  simp [AddAttributes, Function.update_noteq hq]

theorem span_addAttributes_recording (s : Span) (attrs : List Attribute) :
    (s.AddAttributes attrs).recording = s.recording := by
  unfold Span.AddAttributes
  split <;> rfl

theorem span_addAttributes_lookup_ne (s : Span) (a : Attribute) (k : String) (h : k ≠ a.key) :
    List.lookup k (s.AddAttributes [a]).attributes = List.lookup k s.attributes := by
  unfold Span.AddAttributes
  split
  · simpa using lookup_set_ne s.attributes a k h
  · rfl

theorem span_addAttributes_lookup_self (s : Span) (a : Attribute) (h : s.recording = true) :
    List.lookup a.key (s.AddAttributes [a]).attributes = some a.value := by
  unfold Span.AddAttributes
  simpa [h] using lookup_set_self s.attributes a

theorem labelLoop_recording (p : SpanRef) (ls : List (String × String)) (st : HState) :
    ((labelLoop (some p) ls st).heap p).recording = (st.heap p).recording := by
  induction ls generalizing st with
  | nil => rfl
  | cons hd tl ih =>
    obtain ⟨k, v⟩ := hd
    rw [labelLoop_cons, ih]
    simp [addAttributes_heap_self, span_addAttributes_recording]

theorem labelLoop_lookup_not_mem (p : SpanRef) (ls : List (String × String)) (st : HState)
    (k : String) (hk : k ∉ ls.map Prod.fst) :
    List.lookup k ((labelLoop (some p) ls st).heap p).attributes =
      List.lookup k (st.heap p).attributes := by
  induction ls generalizing st with
  | nil => rfl
  | cons hd tl ih =>
    obtain ⟨k0, v0⟩ := hd
    simp only [List.map_cons, List.mem_cons, not_or] at hk
    rw [labelLoop_cons, ih _ hk.2]
    simp only [addAttributes_heap_self]
    exact span_addAttributes_lookup_ne _ _ _ hk.1

theorem labelLoop_lookup_mem (p : SpanRef) (ls : List (String × String)) (st : HState)
    (hrec : (st.heap p).recording = true) (hnd : (ls.map Prod.fst).Nodup)
    (k v : String) (hkv : (k, v) ∈ ls) :
    List.lookup k ((labelLoop (some p) ls st).heap p).attributes = some (AttrValue.str v) := by
  induction ls generalizing st with
  | nil => cases hkv
  | cons hd tl ih =>
    obtain ⟨k0, v0⟩ := hd
    simp only [List.map_cons, List.nodup_cons] at hnd
    rw [labelLoop_cons]
    rcases List.mem_cons.1 hkv with heq | hmem
    · obtain ⟨rfl, rfl⟩ := Prod.mk.inj heq
      rw [labelLoop_lookup_not_mem _ _ _ _ hnd.1]
      simp only [addAttributes_heap_self]
      exact span_addAttributes_lookup_self _ (StringAttribute k v) hrec
    · apply ih _ _ hnd.2 hmem
      simp only [addAttributes_heap_self, span_addAttributes_recording]
      exact hrec

theorem labelLoop_heap_other (p q : SpanRef) (hq : q ≠ p) (ls : List (String × String)) (st : HState) :
    (labelLoop (some p) ls st).heap q = st.heap q := by
  induction ls generalizing st with
  | nil => rfl
  | cons hd tl ih =>
    obtain ⟨k, v⟩ := hd
    rw [labelLoop_cons, ih]
    exact addAttributes_heap_other _ _ _ _ hq

/-! ## Lemmas: events of a run -/

theorem sentRequests_append (xs ys : List Event) :
    sentRequests (xs ++ ys) = sentRequests xs ++ sentRequests ys := by
  induction xs with
  | nil => rfl
  | cons e tl ih => cases e <;> simp [sentRequests, ih]

theorem closedBodies_append (xs ys : List Event) :
    closedBodies (xs ++ ys) = closedBodies xs ++ closedBodies ys := by
  induction xs with
  | nil => rfl
  | cons e tl ih => cases e <;> simp [closedBodies, ih]

theorem addedAttributes_append (xs ys : List Event) :
    addedAttributes (xs ++ ys) = addedAttributes xs ++ addedAttributes ys := by
  induction xs with
  | nil => rfl
  | cons e tl ih => cases e <;> simp [addedAttributes, ih]

theorem labelLoop_events (span1 : Option SpanRef) (ls : List (String × String)) (st : HState) :
    (labelLoop span1 ls st).events =
      st.events ++ ls.flatMap (fun kv =>
        [Event.logLabel kv.1 kv.2, Event.addAttributes span1 (StringAttribute kv.1 kv.2)]) := by
  induction ls generalizing st with
  | nil => simp [labelLoop]
  | cons hd tl ih =>
    obtain ⟨k, v⟩ := hd
    rw [labelLoop_cons, ih]
    simp [List.flatMap_cons]

theorem sentRequests_labels (span1 : Option SpanRef) (ls : List (String × String)) :
    sentRequests (ls.flatMap (fun kv =>
      [Event.logLabel kv.1 kv.2, Event.addAttributes span1 (StringAttribute kv.1 kv.2)])) = [] := by
  induction ls with
  | nil => rfl
  | cons hd tl ih =>
    rw [List.flatMap_cons, sentRequests_append, ih]
    rfl

theorem closedBodies_labels (span1 : Option SpanRef) (ls : List (String × String)) :
    closedBodies (ls.flatMap (fun kv =>
      [Event.logLabel kv.1 kv.2, Event.addAttributes span1 (StringAttribute kv.1 kv.2)])) = [] := by
  induction ls with
  | nil => rfl
  | cons hd tl ih =>
    rw [List.flatMap_cons, closedBodies_append, ih]
    rfl

theorem addedAttributes_labels (span1 : Option SpanRef) (ls : List (String × String)) :
    addedAttributes (ls.flatMap (fun kv =>
      [Event.logLabel kv.1 kv.2, Event.addAttributes span1 (StringAttribute kv.1 kv.2)])) =
      ls.map (fun kv => StringAttribute kv.1 kv.2) := by
  induction ls with
  | nil => rfl
  | cons hd tl ih =>
    rw [List.flatMap_cons, addedAttributes_append, ih]
    rfl

/-! ## Lemmas: the steps of a run -/

theorem detectStep_error (c : Calls) (span1 : Option SpanRef) (st : HState)
    (abc0 : Option Resource) (err : String) (h : c.detect = (abc0, some err)) :
    detectStep c span1 st = Step.next { st with events := st.events ++ [Event.logPrint err] } := by
  unfold detectStep
  rw [h]
  cases abc0 <;> rfl

theorem detectStep_ok (c : Calls) (span1 : Option SpanRef) (st : HState)
    (abc : Resource) (h : c.detect = (some abc, none)) :
    detectStep c span1 st =
      Step.next (labelLoop span1 abc.Labels
        { st with events := st.events ++ [Event.logPrint abc.Type_] }) := by
  unfold detectStep
  rw [h]

theorem detectStep_nil (c : Calls) (span1 : Option SpanRef) (st : HState)
    (h : c.detect = (none, none)) :
    detectStep c span1 st = Step.panic st := by
  unfold detectStep
  rw [h]

/-- The detection step reads only the detection result. -/
theorem detectStep_congr (c c2 : Calls) (span1 : Option SpanRef) (st : HState)
    (h : c.detect = c2.detect) :
    detectStep c span1 st = detectStep c2 span1 st := by
  unfold detectStep
  rw [h]

/-- Unless detection returns neither a resource nor an error, the detection step goes on,
and what it adds to the events holds no outbound call and no close. -/
theorem detectStep_next (c : Calls) (span1 : Option SpanRef) (st : HState)
    (hd : c.detect ≠ (none, none)) :
    ∃ st2, detectStep c span1 st = Step.next st2 ∧
      sentRequests st2.events = sentRequests st.events ∧
      closedBodies st2.events = closedBodies st.events := by
  rcases hc : c.detect with ⟨abc0, e⟩
  cases e with
  | some err =>
    refine ⟨_, detectStep_error c span1 st abc0 err hc, ?_, ?_⟩
    · simp [sentRequests_append, sentRequests]
    · simp [closedBodies_append, closedBodies]
  | none =>
    cases abc0 with
    | none => exact absurd hc hd
    | some abc =>
      refine ⟨_, detectStep_ok c span1 st abc hc, ?_, ?_⟩
      · simp [labelLoop_events, sentRequests_append, sentRequests, sentRequests_labels]
      · simp [labelLoop_events, closedBodies_append, closedBodies, closedBodies_labels]

theorem logSpanStep_heap (span1 : Option SpanRef) (st : HState) :
    (logSpanStep span1 st).heap = st.heap := by
  cases span1 <;> rfl

theorem logSpanStep_sent (span1 : Option SpanRef) (st : HState) :
    sentRequests (logSpanStep span1 st).events = sentRequests st.events := by
  cases span1 <;> simp [logSpanStep, sentRequests_append, sentRequests]

theorem logSpanStep_closed (span1 : Option SpanRef) (st : HState) :
    closedBodies (logSpanStep span1 st).events = closedBodies st.events := by
  cases span1 <;> simp [logSpanStep, closedBodies_append, closedBodies]

theorem logSpanStep_added (span1 : Option SpanRef) (st : HState) :
    addedAttributes (logSpanStep span1 st).events = addedAttributes st.events := by
  cases span1 <;> simp [logSpanStep, addedAttributes_append, addedAttributes]

theorem doStep_heap (c : Calls) (req : Request) (st : HState) :
    (doStep c req st).heap = st.heap := by
  unfold doStep
  rcases c.clientDo with ⟨_ | resp, _ | err⟩ <;> rfl

theorem doStep_sent (c : Calls) (req : Request) (st : HState) :
    sentRequests (doStep c req st).events = sentRequests st.events ++ [req] := by
  unfold doStep
  rcases c.clientDo with ⟨_ | resp, _ | err⟩ <;> simp [sentRequests_append, sentRequests]

theorem doStep_added (c : Calls) (req : Request) (st : HState) :
    addedAttributes (doStep c req st).events = addedAttributes st.events := by
  unfold doStep
  rcases c.clientDo with ⟨_ | resp, _ | err⟩ <;> simp [addedAttributes_append, addedAttributes]

/-- The outcome of the last step is decided by the result of `client.Do` alone. -/
theorem doStep_outcome_congr (c c2 : Calls) (req req2 : Request) (st st2 : HState)
    (h : c.clientDo = c2.clientDo) :
    (doStep c req st).outcome = (doStep c2 req2 st2).outcome := by
  unfold doStep
  rw [h]
  rcases c2.clientDo with ⟨_ | resp, _ | err⟩ <;> rfl

theorem doStep_response (c : Calls) (req : Request) (st : HState) (resp : Response)
    (h : c.clientDo = (some resp, none)) :
    doStep c req st =
      { heap := st.heap
        events := (st.events ++ [Event.clientDo req]) ++ [Event.bodyClose resp]
        outcome := Outcome.returned } := by
  unfold doStep
  rw [h]

theorem doStep_error (c : Calls) (req : Request) (st : HState) (resp0 : Option Response)
    (err : String) (h : c.clientDo = (resp0, some err)) :
    doStep c req st =
      { heap := st.heap
        events := (st.events ++ [Event.clientDo req]) ++ [Event.logFatal err]
        outcome := Outcome.exited 1 } := by
  unfold doStep
  rw [h]
  cases resp0 <;> rfl

/-! ## Lemmas: a whole run -/

/-- A run in which the detection step goes on is the rest of the handler run from there. -/
theorem handler_next (c : Calls) (r : Request) (heap : Heap) (st : HState)
    (h : detectStep c (FromContext r.ctx) { heap := heap, events := [] } = Step.next st) :
    handler c r heap =
      doStep c ((NewRequest "GET" "https://www.google.com" none).WithContext r.ctx)
        (fromEnvStep c (logSpanStep (FromContext r.ctx) st)) := by
  unfold handler
  simp only [h]

/-- A run in which the detection step panics ends there. -/
theorem handler_panic (c : Calls) (r : Request) (heap : Heap) (st : HState)
    (h : detectStep c (FromContext r.ctx) { heap := heap, events := [] } = Step.panic st) :
    handler c r heap = { heap := st.heap, events := st.events, outcome := Outcome.panicked } := by
  unfold handler
  simp only [h]

/-- The heap a run ends with is the heap left by the detection step. -/
theorem handler_heap (c : Calls) (r : Request) (heap : Heap) :
    (handler c r heap).heap =
      (detectStep c (FromContext r.ctx) { heap := heap, events := [] }).state.heap := by
  cases h : detectStep c (FromContext r.ctx) { heap := heap, events := [] } with
  | next st =>
    rw [handler_next c r heap st h, doStep_heap]
    simp [fromEnvStep, logSpanStep_heap, Step.state]
  | panic st =>
    rw [handler_panic c r heap st h]
    rfl

/-- The `AddAttributes` calls of a run are those of the detection step. -/
theorem handler_added (c : Calls) (r : Request) (heap : Heap) :
    addedAttributes (handler c r heap).events =
      addedAttributes
        (detectStep c (FromContext r.ctx) { heap := heap, events := [] }).state.events := by
  cases h : detectStep c (FromContext r.ctx) { heap := heap, events := [] } with
  | next st =>
    rw [handler_next c r heap st h, doStep_added]
    simp [fromEnvStep, addedAttributes_append, addedAttributes, logSpanStep_added, Step.state]
  | panic st =>
    rw [handler_panic c r heap st h]
    rfl

/-- Unless detection returns neither a resource nor an error, exactly one request goes to
`client.Do`: the fresh GET carrying the inbound context. -/
theorem handler_sent (c : Calls) (r : Request) (heap : Heap) (hd : c.detect ≠ (none, none)) :
    sentRequests (handler c r heap).events =
      [(NewRequest "GET" "https://www.google.com" none).WithContext r.ctx] := by
  obtain ⟨st, hst, hsent, _⟩ :=
    detectStep_next c (FromContext r.ctx) { heap := heap, events := [] } hd
  rw [handler_next c r heap st hst, doStep_sent]
  simp [fromEnvStep, sentRequests_append, sentRequests, logSpanStep_sent, hsent]

/-- Unless detection returns neither a resource nor an error, two runs whose `client.Do`
results agree end the same way. -/
theorem handler_outcome_congr (c c2 : Calls) (r r2 : Request) (heap heap2 : Heap)
    (hd : c.detect ≠ (none, none)) (hd2 : c2.detect ≠ (none, none))
    (h : c.clientDo = c2.clientDo) :
    (handler c r heap).outcome = (handler c2 r2 heap2).outcome := by
  obtain ⟨st, hst, _, _⟩ :=
    detectStep_next c (FromContext r.ctx) { heap := heap, events := [] } hd
  obtain ⟨st2, hst2, _, _⟩ :=
    detectStep_next c2 (FromContext r2.ctx) { heap := heap2, events := [] } hd2
  rw [handler_next c r heap st hst, handler_next c2 r2 heap2 st2 hst2]
  exact doStep_outcome_congr c c2 _ _ _ _ h

/-- A run that reaches `client.Do` and gets a response without error: the body is closed
once, as the last event, and the handler returns. -/
theorem handler_response (c : Calls) (r : Request) (heap : Heap) (resp : Response)
    (hd : c.detect ≠ (none, none)) (hdo : c.clientDo = (some resp, none)) :
    closedBodies (handler c r heap).events = [resp] ∧
    (∃ pre, (handler c r heap).events = pre ++
      [Event.clientDo ((NewRequest "GET" "https://www.google.com" none).WithContext r.ctx),
       Event.bodyClose resp]) ∧
    (handler c r heap).outcome = Outcome.returned := by
  obtain ⟨st, hst, _, hclosed⟩ :=
    detectStep_next c (FromContext r.ctx) { heap := heap, events := [] } hd
  rw [handler_next c r heap st hst, doStep_response c _ _ resp hdo]
  refine ⟨?_, ⟨(fromEnvStep c (logSpanStep (FromContext r.ctx) st)).events, ?_⟩, rfl⟩
  · simp [fromEnvStep, closedBodies_append, closedBodies, logSpanStep_closed, hclosed]
  · simp

/-- A run that reaches `client.Do` and gets an error: nothing is closed, the fatal log is
the last event, and the process exits with status 1. -/
theorem handler_transport_error (c : Calls) (r : Request) (heap : Heap)
    (resp0 : Option Response) (err : String)
    (hd : c.detect ≠ (none, none)) (hdo : c.clientDo = (resp0, some err)) :
    closedBodies (handler c r heap).events = [] ∧
    (∃ pre, (handler c r heap).events = pre ++
      [Event.clientDo ((NewRequest "GET" "https://www.google.com" none).WithContext r.ctx),
       Event.logFatal err]) ∧
    (handler c r heap).outcome = Outcome.exited 1 := by
  obtain ⟨st, hst, _, hclosed⟩ :=
    detectStep_next c (FromContext r.ctx) { heap := heap, events := [] } hd
  rw [handler_next c r heap st hst, doStep_error c _ _ resp0 err hdo]
  refine ⟨?_, ⟨(fromEnvStep c (logSpanStep (FromContext r.ctx) st)).events, ?_⟩, rfl⟩
  · simp [fromEnvStep, closedBodies_append, closedBodies, logSpanStep_closed, hclosed]
  · simp

/-! ## Resource detection -/

/-- C2: when `gke.Detect` returns an error (with or without a resource beside it) the
handler makes no `AddAttributes` call and leaves every span exactly as it was, hands
`client.Do` the same single request as in a run where detection returned a resource, and
ends the same way as that run: the detection error does not abort the request. -/
theorem detect_error_leaves_span_and_request (err : String) (abc0 : Option Resource)
    (abc : Resource) (fe : Option Resource × Option String)
    (cd : Option Response × Option String) (r : Request) (heap : Heap) :
    (handler (Calls.mk (abc0, some err) fe cd) r heap).heap = heap ∧
    addedAttributes (handler (Calls.mk (abc0, some err) fe cd) r heap).events = [] ∧
    sentRequests (handler (Calls.mk (abc0, some err) fe cd) r heap).events =
      sentRequests (handler (Calls.mk (some abc, none) fe cd) r heap).events ∧
    sentRequests (handler (Calls.mk (abc0, some err) fe cd) r heap).events =
      [(NewRequest "GET" "https://www.google.com" none).WithContext r.ctx] ∧
    (handler (Calls.mk (abc0, some err) fe cd) r heap).outcome =
      (handler (Calls.mk (some abc, none) fe cd) r heap).outcome := by
  have herr : (Calls.mk (abc0, some err) fe cd).detect ≠ (none, none) := by simp
  have hok : (Calls.mk (some abc, none) fe cd).detect ≠ (none, none) := by simp
  refine ⟨?_, ?_, ?_, ?_, ?_⟩
  · rw [handler_heap, detectStep_error _ _ _ abc0 err rfl]
    rfl
  · rw [handler_added, detectStep_error _ _ _ abc0 err rfl]
    rfl
  · rw [handler_sent _ r heap herr, handler_sent _ r heap hok]
  · rw [handler_sent _ r heap herr]
  · exact handler_outcome_congr _ _ r r heap heap herr hok rfl

/-- C3: with a recording span in the inbound context and a successful detection whose label
map has distinct keys, after the handler every label `(k, v)` is the string attribute
`k = v` of that span (whatever was stored under `k` before), every key outside the
labels keeps the value it had, and the `AddAttributes` calls made are exactly one string
attribute per label. -/
theorem handler_labels_become_attributes (c : Calls) (r : Request) (heap : Heap)
    (abc : Resource) (p : SpanRef)
    (hdetect : c.detect = (some abc, none))
    (hspan : FromContext r.ctx = some p)
    (hrec : (heap p).recording = true)
    (hkeys : (abc.Labels.map Prod.fst).Nodup) :
    (∀ k v, (k, v) ∈ abc.Labels →
      List.lookup k ((handler c r heap).heap p).attributes = some (AttrValue.str v)) ∧
    (∀ k, k ∉ abc.Labels.map Prod.fst →
      List.lookup k ((handler c r heap).heap p).attributes = List.lookup k (heap p).attributes) ∧
    addedAttributes (handler c r heap).events =
      abc.Labels.map (fun kv => StringAttribute kv.1 kv.2) := by
  have hstep := detectStep_ok c (FromContext r.ctx) { heap := heap, events := [] } abc hdetect
  have hheap : (handler c r heap).heap =
      (labelLoop (some p) abc.Labels
        { heap := heap, events := [Event.logPrint abc.Type_] }).heap := by
    rw [handler_heap, hstep, hspan]
    rfl
  refine ⟨?_, ?_, ?_⟩
  · intro k v hkv
    rw [hheap]
    exact labelLoop_lookup_mem p abc.Labels _ hrec hkeys k v hkv
  · intro k hk
    rw [hheap]
    exact labelLoop_lookup_not_mem p abc.Labels _ k hk
  · rw [handler_added, hstep]
    simp [Step.state, labelLoop_events, addedAttributes_append, addedAttributes,
      addedAttributes_labels]

/-- Witness for C3 on the example run: `zone` is overwritten, `pod_name` is added and
`http.path` is kept. -/
theorem handler_labels_become_attributes_witness :
    exampleCallsOk.detect = (some exampleResource, none) ∧
    FromContext exampleRequest.ctx = some 1 ∧
    (exampleResource.Labels.map Prod.fst).Nodup ∧
    (exampleHeap 1).recording = true ∧
    List.lookup "zone" (exampleHeap 1).attributes = some (AttrValue.str "old") ∧
    List.lookup "zone" ((handler exampleCallsOk exampleRequest exampleHeap).heap 1).attributes =
      some (AttrValue.str "us-central1-a") ∧
    List.lookup "pod_name" ((handler exampleCallsOk exampleRequest exampleHeap).heap 1).attributes =
      some (AttrValue.str "p1") ∧
    List.lookup "http.path" ((handler exampleCallsOk exampleRequest exampleHeap).heap 1).attributes =
      some (AttrValue.str "/foo") := by
  have hkeys : (exampleResource.Labels.map Prod.fst).Nodup := by decide
  have h := handler_labels_become_attributes exampleCallsOk exampleRequest exampleHeap
    exampleResource 1 rfl rfl rfl hkeys
  refine ⟨rfl, rfl, hkeys, rfl, by decide, ?_, ?_, ?_⟩
  · exact h.1 "zone" "us-central1-a" (by decide)
  · exact h.1 "pod_name" "p1" (by decide)
  · rw [h.2.1 "http.path" (by decide)]
    decide

/-- C6, failing input: when `gke.Detect` returns neither a resource nor an error, line 83
dereferences the nil resource and the handler panics with nothing logged: no request is
handed to `client.Do`, although the outbound call itself would have answered. -/
theorem detect_nil_nil_run_sends_nothing :
    exampleCallsNoResource.detect = (none, none) ∧
    exampleCallsNoResource.clientDo = (some { StatusCode := 200, Body := 3 }, none) ∧
    (handler exampleCallsNoResource exampleRequest exampleHeap).events = [] ∧
    sentRequests (handler exampleCallsNoResource exampleRequest exampleHeap).events = [] ∧
    (handler exampleCallsNoResource exampleRequest exampleHeap).outcome = Outcome.panicked := by
  decide

/-! ## The outbound call -/

/-- C4, counterexample: on the example run whose outbound call fails in the transport the
handler does not return to the server; the process exits with status 1. -/
theorem transport_error_run_exits :
    (handler exampleCallsTransportError exampleRequest exampleHeap).outcome ≠ Outcome.returned ∧
    (handler exampleCallsTransportError exampleRequest exampleHeap).outcome = Outcome.exited 1 := by
  decide

/-- C4, amended: when `gke.Detect` returns an error or a resource, then whatever these
and the environment lookup are, the handler returns to the server when `client.Do` gives
a response without error, and exits the process with status 1 (through `log.Fatal`) when
`client.Do` gives an error. -/
theorem handler_exits_only_on_transport_error (d : Option Resource × Option String)
    (fe : Option Resource × Option String) (r : Request) (heap : Heap)
    (hd : d ≠ (none, none)) :
    (∀ resp, (handler (Calls.mk d fe (some resp, none)) r heap).outcome = Outcome.returned) ∧
    (∀ resp0 err,
      (handler (Calls.mk d fe (resp0, some err)) r heap).outcome = Outcome.exited 1) := by
  constructor
  · intro resp
    exact (handler_response (Calls.mk d fe (some resp, none)) r heap resp hd rfl).2.2
  · intro resp0 err
    exact (handler_transport_error (Calls.mk d fe (resp0, some err)) r heap resp0 err hd rfl).2.2

/-- Witness for C4: a detection error and a failing environment lookup, once with an
answering outbound call and once with a transport error. -/
theorem handler_exits_only_on_transport_error_witness :
    ((none, some "not on GKE") : Option Resource × Option String) ≠ (none, none) ∧
    (handler (Calls.mk (none, some "not on GKE") (none, some "no environment resource")
      (some { StatusCode := 404, Body := 8 }, none)) exampleRequest exampleHeap).outcome =
      Outcome.returned ∧
    (handler (Calls.mk (none, some "not on GKE") (none, some "no environment resource")
      (none, some "dial tcp: connection refused")) exampleRequest exampleHeap).outcome =
      Outcome.exited 1 := by
  have hd : ((none, some "not on GKE") : Option Resource × Option String) ≠ (none, none) := by
    decide
  have h := handler_exits_only_on_transport_error (none, some "not on GKE")
    (none, some "no environment resource") exampleRequest exampleHeap hd
  exact ⟨hd, h.1 { StatusCode := 404, Body := 8 }, h.2 none "dial tcp: connection refused"⟩

/-- C5, counterexample: on the example run in which `client.Do` gives back a response
together with an error, the handler has a body in hand and never closes it; on the run
whose outbound call fails with no response nothing is closed either; both runs end in the
exit of the process. -/
theorem transport_error_run_closes_nothing :
    exampleCallsRedirectError.clientDo =
      (some { StatusCode := 302, Body := 2 }, some "stopped after 10 redirects") ∧
    closedBodies (handler exampleCallsRedirectError exampleRequest exampleHeap).events = [] ∧
    (handler exampleCallsRedirectError exampleRequest exampleHeap).outcome = Outcome.exited 1 ∧
    closedBodies (handler exampleCallsTransportError exampleRequest exampleHeap).events = [] := by
  decide

/-- C5, amended: on a run that reaches the outbound call (detection returned an error or a
resource): when `client.Do` gives a response without error, of any status code, its body
is closed exactly once, the close is the last event and directly follows the outbound
call, and the handler returns; when `client.Do` gives an error, with or without a
response, no body is closed, the fatal log directly follows the outbound call and the
process exits. -/
theorem body_closed_once_when_response (d : Option Resource × Option String)
    (fe : Option Resource × Option String) (r : Request) (heap : Heap)
    (hd : d ≠ (none, none)) :
    (∀ resp,
      closedBodies (handler (Calls.mk d fe (some resp, none)) r heap).events = [resp] ∧
      (∃ pre, (handler (Calls.mk d fe (some resp, none)) r heap).events = pre ++
        [Event.clientDo ((NewRequest "GET" "https://www.google.com" none).WithContext r.ctx),
         Event.bodyClose resp]) ∧
      (handler (Calls.mk d fe (some resp, none)) r heap).outcome = Outcome.returned) ∧
    (∀ resp0 err,
      closedBodies (handler (Calls.mk d fe (resp0, some err)) r heap).events = [] ∧
      (∃ pre, (handler (Calls.mk d fe (resp0, some err)) r heap).events = pre ++
        [Event.clientDo ((NewRequest "GET" "https://www.google.com" none).WithContext r.ctx),
         Event.logFatal err]) ∧
      (handler (Calls.mk d fe (resp0, some err)) r heap).outcome = Outcome.exited 1) := by
  constructor
  · intro resp
    exact handler_response (Calls.mk d fe (some resp, none)) r heap resp hd rfl
  · intro resp0 err
    exact handler_transport_error (Calls.mk d fe (resp0, some err)) r heap resp0 err hd rfl

/-- Witness for C5: a successful detection, once with an outbound call answered with
status 500 and once with a response handed back beside an error. -/
theorem body_closed_once_when_response_witness :
    ((some exampleResource, none) : Option Resource × Option String) ≠ (none, none) ∧
    closedBodies (handler (Calls.mk (some exampleResource, none) (none, none)
      (some { StatusCode := 500, Body := 1 }, none)) exampleRequest exampleHeap).events =
      [{ StatusCode := 500, Body := 1 }] ∧
    closedBodies (handler (Calls.mk (some exampleResource, none) (none, none)
      (some { StatusCode := 302, Body := 2 }, some "stopped after 10 redirects"))
      exampleRequest exampleHeap).events = [] := by
  have hd : ((some exampleResource, none) : Option Resource × Option String) ≠ (none, none) := by
    decide
  have h := body_closed_once_when_response (some exampleResource, none) (none, none)
    exampleRequest exampleHeap hd
  exact ⟨hd, (h.1 { StatusCode := 500, Body := 1 }).1,
    (h.2 (some { StatusCode := 302, Body := 2 }) "stopped after 10 redirects").1⟩

/-- C10: two runs on the same request, span contents, detection result and outbound result
that differ only in what `resource.FromEnv` returns end with the same span contents, make
the same `AddAttributes` calls, send the same outbound request and end the same way. -/
theorem fromEnv_result_does_not_reach_trace (d : Option Resource × Option String)
    (cd : Option Response × Option String) (fe fe2 : Option Resource × Option String)
    (r : Request) (heap : Heap) :
    (handler (Calls.mk d fe cd) r heap).heap = (handler (Calls.mk d fe2 cd) r heap).heap ∧
    addedAttributes (handler (Calls.mk d fe cd) r heap).events =
      addedAttributes (handler (Calls.mk d fe2 cd) r heap).events ∧
    sentRequests (handler (Calls.mk d fe cd) r heap).events =
      sentRequests (handler (Calls.mk d fe2 cd) r heap).events ∧
    (handler (Calls.mk d fe cd) r heap).outcome = (handler (Calls.mk d fe2 cd) r heap).outcome := by
  have hstep := detectStep_congr (Calls.mk d fe cd) (Calls.mk d fe2 cd) (FromContext r.ctx)
    { heap := heap, events := [] } rfl
  refine ⟨?_, ?_, ?_, ?_⟩
  · rw [handler_heap, handler_heap, hstep]
  · rw [handler_added, handler_added, hstep]
  · by_cases hd : d = (none, none)
    · have h1 := detectStep_nil (Calls.mk d fe cd) (FromContext r.ctx)
        { heap := heap, events := [] } hd
      have h2 := detectStep_nil (Calls.mk d fe2 cd) (FromContext r.ctx)
        { heap := heap, events := [] } hd
      rw [handler_panic _ r heap _ h1, handler_panic _ r heap _ h2]
    · rw [handler_sent (Calls.mk d fe cd) r heap hd, handler_sent (Calls.mk d fe2 cd) r heap hd]
  · by_cases hd : d = (none, none)
    · have h1 := detectStep_nil (Calls.mk d fe cd) (FromContext r.ctx)
        { heap := heap, events := [] } hd
      have h2 := detectStep_nil (Calls.mk d fe2 cd) (FromContext r.ctx)
        { heap := heap, events := [] } hd
      rw [handler_panic _ r heap _ h1, handler_panic _ r heap _ h2]
    · exact handler_outcome_congr _ _ r r heap heap hd hd rfl

/-! ## Start-up -/

/-- C8: when exporter creation succeeds, whatever sampler was in force before and whatever
view registration returns, start-up does not exit and leaves `AlwaysSample` in force: it
answers true for every trace id, so any two calls agree, and every root span started under
it is recording and sampled. -/
theorem main_configures_always_sample (viewErr : Option String) (current : Sampler) :
    (mainSetup (StartupCalls.mk none viewErr) current).exit = none ∧
    (mainSetup (StartupCalls.mk none viewErr) current).sampler = AlwaysSample ∧
    (∀ traceId, (mainSetup (StartupCalls.mk none viewErr) current).sampler traceId = true) ∧
    (∀ traceId spanId,
      (startRootSpan (mainSetup (StartupCalls.mk none viewErr) current).sampler
        traceId spanId).recording = true ∧
      (startRootSpan (mainSetup (StartupCalls.mk none viewErr) current).sampler
        traceId spanId).context.sampled = true) := by
  refine ⟨rfl, rfl, fun _ => rfl, fun _ _ => ⟨rfl, rfl⟩⟩

end TraceQuickstart
